import Mathlib

/-!
# Verification of the np_queuey sqlite job queue

Shallow embedding of `src/np_queuey/queues/sqlite_isilon_queue.py`
(`SqliteJobQueue`) and `src/np_queuey/utils.py` (`update_status`).

The queue table is modelled as a `List Job` (one element per row, in rowid
order).  Every store operation in the Python source runs inside one exclusive
transaction; in this sequential model each operation is a pure function on the
table.  Timestamps (`time.time()`) and the host name are passed in explicitly.
Python truthiness of the nullable columns is modelled by the `truthy*`
functions.
-/

/-- One row of the job table, with the seven columns of
`JOB_ARGS_TO_SQL_DEFINITIONS` (session, added, priority, started, hostname,
finished, error).  `added` is NOT NULL; the other non-key columns default to
NULL (`Option`). -/
structure Job where
  session : String
  added : Nat
  priority : Int
  started : Option Nat
  hostname : Option String
  finished : Option Int
  error : Option String
deriving DecidableEq, Repr

/-- Python truthiness of a nullable numeric column: `None` and `0` are falsy. -/
def truthyNat : Option Nat → Bool
  | none => false
  | some n => n != 0

/-- Python truthiness of a nullable integer column: `None` and `0` are falsy. -/
def truthyInt : Option Int → Bool
  | none => false
  | some n => n != 0

/-- Python truthiness of a nullable text column: `None` and `""` are falsy. -/
def truthyStr : Option String → Bool
  | none => false
  | some s => s != ""

/-- Errors raised by the queue store: `KeyError` on a missing session,
`ValueError` on duplicate rows for one session (`__getitem__`), and
`ValueError` on a session mismatch in `__setitem__`. -/
inductive QueueErr where
  | notFound (k : String)
  | ambiguous (k : String)
  | keyMismatch
deriving DecidableEq, Repr

/-- Model of `SqliteJobQueue.__getitem__`: `SELECT * WHERE session = ?`; raises
`KeyError` when no row matches and `ValueError` when several do. -/
def lookup (q : List Job) (k : String) : Except QueueErr Job :=
  match q.filter (fun j => j.session == k) with
  | [] => .error (.notFound k)
  | [j] => .ok j
  | _ => .error (.ambiguous k)

/-- Table after `INSERT OR REPLACE`: the old row for `k` (if any) is deleted
and the new row appended. -/
def replaceRow (q : List Job) (k : String) (j : Job) : List Job :=
  q.filter (fun r => r.session != k) ++ [j]

/-- Model of `SqliteJobQueue.__setitem__`: raises `ValueError` unless the job's own
`session` equals the target key, then `INSERT OR REPLACE`. -/
def setItem (q : List Job) (k : String) (j : Job) : Except QueueErr (List Job) :=
  if j.session == k then .ok (replaceRow q k j) else .error .keyMismatch

/-- Model of `SqliteJobQueue.__contains__`: `bool(hits)` of the `SELECT` for the key. -/
def contains (q : List Job) (k : String) : Bool :=
  !(q.filter (fun j => j.session == k)).isEmpty

/-- The `ORDER BY priority DESC, added ASC` ordering of `__iter__`. -/
def JobOrder (a b : Job) : Prop :=
  b.priority < a.priority ∨ (a.priority = b.priority ∧ a.added ≤ b.added)

instance : DecidableRel JobOrder := fun a b => by
  unfold JobOrder; infer_instance

instance : IsTotal Job JobOrder where
  total a b := by
    unfold JobOrder
    rcases lt_trichotomy a.priority b.priority with h | h | h
    · exact Or.inr (Or.inl h)
    · rcases Nat.le_total a.added b.added with h' | h'
      · exact Or.inl (Or.inr ⟨h, h'⟩)
      · exact Or.inr (Or.inr ⟨h.symm, h'⟩)
    · exact Or.inl (Or.inl h)

instance : IsTrans Job JobOrder where
  trans a b c hab hbc := by
    unfold JobOrder at *
    rcases hab with h1 | ⟨h1, h1'⟩ <;> rcases hbc with h2 | ⟨h2, h2'⟩
    · exact Or.inl (h2.trans h1)
    · exact Or.inl (h2 ▸ h1)
    · exact Or.inl (h1 ▸ h2)
    · exact Or.inr ⟨h1.trans h2, h1'.trans h2'⟩

instance : IsRefl Job JobOrder where
  refl _ := Or.inr ⟨rfl, Nat.le_refl _⟩

/-- Model of `SqliteJobQueue.__iter__`: a fresh `SELECT * ORDER BY priority DESC,
added ASC` over the whole table.  SQL leaves the relative order of ties
unspecified; any sort by `JobOrder` is a faithful model. -/
def iterate (q : List Job) : List Job :=
  q.insertionSort JobOrder

/-- One `**kwargs` field-update as passed to `SqliteJobQueue.update`: for each
real column, `none` = leave unchanged, `some v` = assign `v`.
`set_queued` additionally passes `errored=None`; `setattr(job, 'errored',
None)` creates an attribute that is not among the serialized columns
(`column_definitions`), so it never reaches the stored row and has no
counterpart here. -/
structure JobUpdate where
  added : Option Nat := none
  priority : Option Int := none
  started : Option (Option Nat) := none
  hostname : Option (Option String) := none
  finished : Option (Option Int) := none
  error : Option (Option String) := none
deriving DecidableEq, Repr

/-- Apply the `setattr` loop of `SqliteJobQueue.update` to a job value. -/
def applyUpdate (j : Job) (u : JobUpdate) : Job :=
  { j with
    added := u.added.getD j.added
    priority := u.priority.getD j.priority
    started := u.started.getD j.started
    hostname := u.hostname.getD j.hostname
    finished := u.finished.getD j.finished
    error := u.error.getD j.error }

/-- Model of `utils.get_job`: a `JobDataclass` with only `session` filled in;
`added` defaults to the current `time.time()`, everything else to `None`/`0`. -/
def defaultJob (k : String) (now : Nat) : Job :=
  { session := k, added := now, priority := 0,
    started := none, hostname := none, finished := none, error := none }

/-- Model of `SqliteJobQueue.update`: `setdefault` (fetch the row, or insert a default
job when absent), apply the kwargs with `setattr`, write back via
`__setitem__`.  The intermediate insert done by `setdefault` on a missing key
is immediately overwritten by the final write, so only the final table is
modelled. -/
def update (q : List Job) (k : String) (now : Nat) (u : JobUpdate) :
    Except QueueErr (List Job) :=
  match lookup q k with
  | .ok j => setItem q k (applyUpdate j u)
  | .error (.notFound _) => setItem q k (applyUpdate (defaultJob k now) u)
  | .error e => .error e

/-- Model of `SqliteJobQueue.set_finished`: `update(key, finished=1)`. -/
def set_finished (q : List Job) (k : String) (now : Nat) :
    Except QueueErr (List Job) :=
  update q k now { finished := some (some 1) }

/-- Model of `SqliteJobQueue.set_started`: `update` with `started` set to the current
time, `hostname` to the worker identity, and `finished` to 0. -/
def set_started (q : List Job) (k : String) (now : Nat) (host : String) :
    Except QueueErr (List Job) :=
  update q k now
    { started := some (some now), hostname := some (some host),
      finished := some (some 0) }

/-- Model of `SqliteJobQueue.set_queued`: `update(key, started=None, hostname=None,
finished=None, errored=None)`.  The last kwarg sets attribute `errored`, which
is not a serialized column, so the stored `error` column is left unchanged. -/
def set_queued (q : List Job) (k : String) (now : Nat) :
    Except QueueErr (List Job) :=
  update q k now
    { started := some none, hostname := some none, finished := some none }

/-- Model of `SqliteJobQueue.set_errored`: `update(key, error=str(error))`. -/
def set_errored (q : List Job) (k : String) (now : Nat) (err : String) :
    Except QueueErr (List Job) :=
  update q k now { error := some (some err) }

/-- The boolean value of `started and not finished and not error` for one row
(the body of `is_started`, under Python truthiness). -/
def startedFlag (j : Job) : Bool :=
  truthyNat j.started && !truthyInt j.finished && !truthyStr j.error

/-- Model of `SqliteJobQueue.is_started`: `self[k].started and not self[k].finished and
not self[k].error`; the `__getitem__` failure on a missing key propagates.
In this sequential model the three reads return the same row. -/
def is_started (q : List Job) (k : String) : Except QueueErr Bool :=
  match lookup q k with
  | .ok j => .ok (startedFlag j)
  | .error e => .error e

/-- The loop body of `SqliteJobQueue.next`: scan the iteration order, return
the first job with `is_started` false. -/
def nextAux (q : List Job) : List Job → Except QueueErr (Option Job)
  | [] => .ok none
  | j :: rest =>
    match is_started q j.session with
    | .ok b => if b then nextAux q rest else .ok (some j)
    | .error e => .error e

/-- Model of `SqliteJobQueue.next`: iterate in the global order, return the first job
for which `is_started` is false, `None` if there is none. -/
def next (q : List Job) : Except QueueErr (Option Job) :=
  nextAux q (iterate q)

/-- How the caller-supplied work inside `utils.update_status` concludes:
normal return, an ordinary `Exception`, or a `BaseException` that is not an
`Exception` (`KeyboardInterrupt`, `SystemExit`, ...).  For a failure, `msg` is
`str(exc)`. -/
inductive WorkOutcome where
  | success
  | failure (msg : String)
  | interrupt
deriving DecidableEq, Repr

/-- Model of `utils.update_status`: mark the job started, run the work, then mark it
finished / errored / requeued according to the outcome.  The returned `Bool`
records whether the exception propagates to the caller (`True` only for the
interrupt branch, which re-raises). -/
def update_status (q : List Job) (k : String) (now : Nat) (host : String)
    (out : WorkOutcome) : Except QueueErr (List Job × Bool) :=
  match set_started q k now host with
  | .error e => .error e
  | .ok q1 =>
    match out with
    | .success =>
      match set_finished q1 k now with
      | .error e => .error e
      | .ok q2 => .ok (q2, false)
    | .failure msg =>
      match set_errored q1 k now msg with
      | .error e => .error e
      | .ok q2 => .ok (q2, false)
    | .interrupt =>
      match set_queued q1 k now with
      | .error e => .error e
      | .ok q2 => .ok (q2, true)

/-- Well-formedness: the `session` primary key is unique across rows. -/
def WF (q : List Job) : Prop :=
  q.Pairwise (fun a b => a.session ≠ b.session)

instance (q : List Job) : Decidable (WF q) := by
  unfold WF; infer_instance

/-! ## Store lemmas -/

theorem filter_session_eq_single {q : List Job} {j : Job} (hwf : WF q)
    (hmem : j ∈ q) :
    q.filter (fun r => r.session == j.session) = [j] := by
  induction q with
  | nil => cases hmem
  | cons a t ih =>
    rw [WF, List.pairwise_cons] at hwf
    rcases List.mem_cons.mp hmem with h | h
    · subst h
      rw [List.filter_cons_of_pos (by simp)]
      have : t.filter (fun r => r.session == j.session) = [] := by
        rw [List.filter_eq_nil_iff]
        intro b hb
        simpa using (hwf.1 b hb).symm
      rw [this]
    · rw [List.filter_cons_of_neg (by simpa using hwf.1 j h)]
      exact ih hwf.2 h

theorem lookup_of_mem {q : List Job} {j : Job} (hwf : WF q) (hmem : j ∈ q) :
    lookup q j.session = .ok j := by
  rw [lookup, filter_session_eq_single hwf hmem]

theorem session_of_lookup {q : List Job} {k : String} {j : Job}
    (h : lookup q k = .ok j) : j.session = k := by
  rw [lookup] at h
  rcases hf : q.filter (fun r => r.session == k) with _ | ⟨a, _ | ⟨b, t⟩⟩ <;>
      rw [hf] at h <;> cases h
  have hmem : j ∈ q.filter (fun r => r.session == k) := by
    rw [hf]
    exact List.mem_singleton_self j
  simpa using (List.mem_filter.mp hmem).2

theorem mem_of_lookup {q : List Job} {k : String} {j : Job}
    (h : lookup q k = .ok j) : j ∈ q := by
  rw [lookup] at h
  rcases hf : q.filter (fun r => r.session == k) with _ | ⟨a, _ | ⟨b, t⟩⟩ <;>
      rw [hf] at h <;> cases h
  have hmem : j ∈ q.filter (fun r => r.session == k) := by
    rw [hf]
    exact List.mem_singleton_self j
  exact (List.mem_filter.mp hmem).1

theorem filter_replaceRow_self {q : List Job} {k : String} {j : Job}
    (hj : j.session = k) :
    (replaceRow q k j).filter (fun r => r.session == k) = [j] := by
  rw [replaceRow, List.filter_append]
  have h1 : (q.filter (fun r => r.session != k)).filter
      (fun r => r.session == k) = [] := by
    rw [List.filter_eq_nil_iff]
    intro b hb
    simpa using (List.mem_filter.mp hb).2
  have h2 : [j].filter (fun r => r.session == k) = [j] := by
    simp [hj]
  rw [h1, h2, List.nil_append]

theorem lookup_replaceRow_self {q : List Job} {k : String} {j : Job}
    (hj : j.session = k) : lookup (replaceRow q k j) k = .ok j := by
  rw [lookup, filter_replaceRow_self hj]

theorem WF_replaceRow {q : List Job} {k : String} {j : Job} (hwf : WF q)
    (hj : j.session = k) : WF (replaceRow q k j) := by
  rw [WF, replaceRow, List.pairwise_append]
  refine ⟨List.Pairwise.filter _ hwf, List.pairwise_singleton _ _, ?_⟩
  intro a ha b hb
  rw [List.mem_singleton] at hb
  subst hb
  rw [hj]
  simpa using (List.mem_filter.mp ha).2

/-- With a unique primary key, a lookup either finds the row or raises
`KeyError`; the `ValueError` for duplicates cannot fire. -/
theorem lookup_cases {q : List Job} (hwf : WF q) (k : String) :
    (∃ j, lookup q k = .ok j) ∨ lookup q k = .error (.notFound k) := by
  rw [lookup]
  rcases hf : q.filter (fun r => r.session == k) with _ | ⟨a, _ | ⟨b, t⟩⟩
  · exact Or.inr (by rw [hf])
  · exact Or.inl ⟨a, by rw [hf]⟩
  · exfalso
    have hpw : (q.filter (fun r => r.session == k)).Pairwise
        (fun x y => x.session ≠ y.session) :=
      List.Pairwise.filter _ hwf
    rw [hf] at hpw
    have hab := (List.pairwise_cons.mp hpw).1 b (List.mem_cons_self b t)
    have ha : a.session = k := by
      have hm : a ∈ q.filter (fun r => r.session == k) := by
        rw [hf]; simp
      simpa using (List.mem_filter.mp hm).2
    have hb : b.session = k := by
      have hm : b ∈ q.filter (fun r => r.session == k) := by
        rw [hf]; simp
      simpa using (List.mem_filter.mp hm).2
    exact hab (ha.trans hb.symm)

/-- The job value `update` starts from: the stored row if present, else the
default job from `get_job`. -/
def baseRow (q : List Job) (k : String) (now : Nat) : Job :=
  match lookup q k with
  | .ok j => j
  | .error _ => defaultJob k now

theorem applyUpdate_session (j : Job) (u : JobUpdate) :
    (applyUpdate j u).session = j.session := rfl

theorem baseRow_session (q : List Job) (k : String) (now : Nat) :
    (baseRow q k now).session = k := by
  rw [baseRow]
  split
  · next j hj => exact session_of_lookup hj
  · rfl

/-- On a well-formed table, `update` succeeds and replaces the row for `k`
with the kwargs applied over `baseRow`. -/
theorem update_eq_ok {q : List Job} (hwf : WF q) (k : String) (now : Nat)
    (u : JobUpdate) :
    update q k now u =
      .ok (replaceRow q k (applyUpdate (baseRow q k now) u)) := by
  rcases lookup_cases hwf k with ⟨j, hj⟩ | hj
  · rw [update, baseRow, hj]
    show setItem q k (applyUpdate j u) = .ok (replaceRow q k (applyUpdate j u))
    rw [setItem, if_pos (by simp [applyUpdate, session_of_lookup hj])]
  · rw [update, baseRow, hj]
    show setItem q k (applyUpdate (defaultJob k now) u) =
      .ok (replaceRow q k (applyUpdate (defaultJob k now) u))
    rw [setItem, if_pos (by simp [applyUpdate, defaultJob])]

/-- After a successful `update`, the row for `k` reads back as the updated
job, and the table stays well-formed. -/
theorem update_spec {q : List Job} (hwf : WF q) (k : String) (now : Nat)
    (u : JobUpdate) :
    ∃ q', update q k now u = .ok q' ∧
      lookup q' k = .ok (applyUpdate (baseRow q k now) u) ∧ WF q' := by
  refine ⟨replaceRow q k (applyUpdate (baseRow q k now) u),
    update_eq_ok hwf k now u, ?_, ?_⟩
  · exact lookup_replaceRow_self ((applyUpdate_session _ _).trans
      (baseRow_session q k now))
  · exact WF_replaceRow hwf ((applyUpdate_session _ _).trans
      (baseRow_session q k now))

/-! ## `is_started` and `next` lemmas -/

theorem is_started_of_lookup {q : List Job} {k : String} {j : Job}
    (hj : lookup q k = .ok j) : is_started q k = .ok (startedFlag j) := by
  simp [is_started, hj]

theorem iterate_perm (q : List Job) : (iterate q).Perm q :=
  List.perm_insertionSort _ q

theorem iterate_sorted (q : List Job) : List.Sorted JobOrder (iterate q) :=
  List.sorted_insertionSort _ q

theorem mem_iterate {q : List Job} {j : Job} : j ∈ iterate q ↔ j ∈ q :=
  (iterate_perm q).mem_iff

theorem nextAux_eq_find {q : List Job} (l : List Job)
    (h : ∀ j ∈ l, lookup q j.session = .ok j) :
    nextAux q l = .ok (l.find? (fun j => !startedFlag j)) := by
  induction l with
  | nil => rfl
  | cons j rest ih =>
    rw [nextAux, is_started_of_lookup (h j (List.mem_cons_self j rest))]
    show (if startedFlag j = true then nextAux q rest else .ok (some j)) =
      .ok (List.find? (fun r => !startedFlag r) (j :: rest))
    by_cases hb : startedFlag j
    · rw [if_pos hb, List.find?_cons_of_neg _ (by simp [hb])]
      exact ih (fun a ha => h a (List.mem_cons_of_mem j ha))
    · rw [if_neg hb, List.find?_cons_of_pos _ (by simp [hb])]

/-- On a well-formed table, `next` scans `iterate` and returns the first job
whose `is_started` value is false. -/
theorem next_eq_find {q : List Job} (hwf : WF q) :
    next q = .ok ((iterate q).find? (fun j => !startedFlag j)) := by
  rw [next]
  exact nextAux_eq_find _ (fun j hj => lookup_of_mem hwf (mem_iterate.mp hj))

/-- The first match of `find?` on a sorted list is `JobOrder`-before every
match in the list. -/
theorem find?_sorted_first {l : List Job} {p : Job → Bool} {x : Job}
    (hs : List.Sorted JobOrder l) (hf : l.find? p = some x) :
    ∀ y ∈ l, p y = true → JobOrder x y := by
  induction l with
  | nil => cases hf
  | cons a t ih =>
    rw [List.sorted_cons] at hs
    by_cases ha : p a
    · rw [List.find?_cons_of_pos _ ha] at hf
      cases hf
      intro y hy _
      rcases List.mem_cons.mp hy with rfl | hyt
      · exact refl_of JobOrder y
      · exact hs.1 y hyt
    · rw [List.find?_cons_of_neg _ ha] at hf
      intro y hy hpy
      rcases List.mem_cons.mp hy with rfl | hyt
      · exact absurd hpy ha
      · exact ih hs.2 hf y hyt hpy

theorem baseRow_of_lookup {q : List Job} {k : String} {j : Job} (now : Nat)
    (h : lookup q k = .ok j) : baseRow q k now = j := by
  simp [baseRow, h]

instance {ε α : Type} [DecidableEq ε] [DecidableEq α] :
    DecidableEq (Except ε α) := fun a b =>
  match a, b with
  | .ok x, .ok y =>
    if h : x = y then .isTrue (congrArg Except.ok h)
    else .isFalse (fun hc => h (Except.ok.inj hc))
  | .ok _, .error _ => .isFalse (fun hc => Except.noConfusion hc)
  | .error _, .ok _ => .isFalse (fun hc => Except.noConfusion hc)
  | .error x, .error y =>
    if h : x = y then .isTrue (congrArg Except.error h)
    else .isFalse (fun hc => h (Except.error.inj hc))

/-! ## Claims -/

/-- Claim C1: the claim says `set_queued` clears `started`, `hostname`, `finished`
and `error`.  The code passes the kwarg `errored=None` instead of
`error=None`, so a previously recorded error description is NOT cleared:
starting from a row with `error = "boom"`, `set_queued` nulls `started`,
`hostname` and `finished` but leaves `error = "boom"`.  (`is_started` is
still false afterwards, since `started` is cleared.)  This evaluation
exhibits the divergence at the failing input. -/
theorem C1_set_queued_error_not_cleared :
    set_queued [⟨"S1", 1, 0, some 5, some "h", some 1, some "boom"⟩] "S1" 9 =
      .ok [⟨"S1", 1, 0, none, none, none, some "boom"⟩] ∧
    (⟨"S1", 1, 0, none, none, none, some "boom"⟩ : Job).error ≠ none ∧
    is_started [(⟨"S1", 1, 0, none, none, none, some "boom"⟩ : Job)] "S1" =
      .ok false := by
  decide

/-- Claim C3: the claim says that after a forced interruption during guarded
execution the stored job has `started`, `hostname`, `finished` and `error`
all cleared.  The interruption branch of `update_status` does call
`set_queued` and re-raise (the `true` flag below), but because of the
`errored=None` naming slip in `set_queued` a pre-existing error description
survives: starting from a row with `error = "old"`, the final row still has
`error = "old"`. -/
theorem C3_interrupt_requeues_but_error_survives :
    update_status [⟨"S1", 1, 0, none, none, none, some "old"⟩] "S1" 5 "h"
        .interrupt =
      .ok ([⟨"S1", 1, 0, none, none, none, some "old"⟩], true) := by
  decide

/-- Claim C2 counterexample: the claim says `next()` returns an UNCLAIMED job (one
whose `started` field is not set) and returns none exactly when every job has
`started` set.  In the code the scan predicate is `is_started`, which is also
false for a job whose `started` IS set but whose `error` is non-empty: on a
queue whose single job has `started = 5` and `error = "x"`, every job is
claimed in the claim's sense, yet `next` returns that job rather than none. -/
theorem C2_counterexample :
    next [⟨"S1", 1, 0, some 5, some "h", some 0, some "x"⟩] =
      .ok (some ⟨"S1", 1, 0, some 5, some "h", some 0, some "x"⟩) ∧
    (⟨"S1", 1, 0, some 5, some "h", some 0, some "x"⟩ : Job).started ≠ none ∧
    next [(⟨"S1", 1, 0, some 5, some "h", some 0, some "x"⟩ : Job)] ≠
      .ok none := by
  decide

/-- Claim C2 (amended): on a table with unique sessions, `next()` returns none
exactly when every job has `is_started` true (`started` truthy, `finished`
falsy, `error` falsy); otherwise it returns a job of the queue with
`is_started` false that comes no later than any other such job in the
(priority descending, added ascending) order. -/
theorem C2_next_amended {q : List Job} (hwf : WF q) :
    (next q = .ok none ↔ ∀ j ∈ q, startedFlag j = true) ∧
    (∀ j, next q = .ok (some j) →
      j ∈ q ∧ startedFlag j = false ∧
      ∀ j' ∈ q, startedFlag j' = false → JobOrder j j') := by
  have hfind := next_eq_find hwf
  constructor
  · constructor
    · intro h
      rw [hfind] at h
      have hn : (iterate q).find? (fun j => !startedFlag j) = none :=
        Except.ok.inj h
      intro j hj
      have hx := List.find?_eq_none.mp hn j (mem_iterate.mpr hj)
      simpa using hx
    · intro h
      rw [hfind]
      have hn : (iterate q).find? (fun j => !startedFlag j) = none :=
        List.find?_eq_none.mpr (fun j hj => by simp [h j (mem_iterate.mp hj)])
      rw [hn]
  · intro j hj
    rw [hfind] at hj
    have hf : (iterate q).find? (fun r => !startedFlag r) = some j :=
      Except.ok.inj hj
    have hmem : j ∈ iterate q := List.mem_of_find?_eq_some hf
    have hpj := List.find?_some hf
    refine ⟨mem_iterate.mp hmem, by simpa using hpj, ?_⟩
    intro j' hj' hpj'
    exact find?_sorted_first (iterate_sorted q) hf j' (mem_iterate.mpr hj')
      (by simp [hpj'])

/-- Witness for C2 (amended) at a concrete two-job queue. -/
theorem C2_next_amended_witness :
    WF [(⟨"S1", 1, 0, some 5, some "h", some 0, some "x"⟩ : Job),
        ⟨"S2", 2, 0, none, none, none, none⟩] ∧
    ((next [(⟨"S1", 1, 0, some 5, some "h", some 0, some "x"⟩ : Job),
        ⟨"S2", 2, 0, none, none, none, none⟩] = .ok none ↔
      ∀ j ∈ [(⟨"S1", 1, 0, some 5, some "h", some 0, some "x"⟩ : Job),
        ⟨"S2", 2, 0, none, none, none, none⟩], startedFlag j = true) ∧
    (∀ j, next [(⟨"S1", 1, 0, some 5, some "h", some 0, some "x"⟩ : Job),
        ⟨"S2", 2, 0, none, none, none, none⟩] = .ok (some j) →
      j ∈ [(⟨"S1", 1, 0, some 5, some "h", some 0, some "x"⟩ : Job),
        ⟨"S2", 2, 0, none, none, none, none⟩] ∧ startedFlag j = false ∧
      ∀ j' ∈ [(⟨"S1", 1, 0, some 5, some "h", some 0, some "x"⟩ : Job),
        ⟨"S2", 2, 0, none, none, none, none⟩], startedFlag j' = false →
        JobOrder j j')) :=
  ⟨by decide, C2_next_amended (by decide)⟩

/-- Claim C6: on a table with unique sessions, `next()` evaluates `is_started` on
each job of the `iterate` order (priority descending, added ascending) and
returns the first one for which it is false — i.e. it equals `find?` of the
negated flag over `iterate`, and on every job of the queue `is_started`
returns exactly `startedFlag`; it returns `none` when no such job exists. -/
theorem C6_next_scans_iterate {q : List Job} (hwf : WF q) :
    next q = .ok ((iterate q).find? (fun j => !startedFlag j)) ∧
    ∀ j ∈ q, is_started q j.session = .ok (startedFlag j) :=
  ⟨next_eq_find hwf, fun _ hj => is_started_of_lookup (lookup_of_mem hwf hj)⟩

/-- Witness for C6 at a concrete two-job queue. -/
theorem C6_next_scans_iterate_witness :
    WF [(⟨"S1", 1, 0, some 5, some "h", some 0, none⟩ : Job),
        ⟨"S2", 2, 0, none, none, none, none⟩] ∧
    (next [(⟨"S1", 1, 0, some 5, some "h", some 0, none⟩ : Job),
        ⟨"S2", 2, 0, none, none, none, none⟩] =
      .ok ((iterate [(⟨"S1", 1, 0, some 5, some "h", some 0, none⟩ : Job),
        ⟨"S2", 2, 0, none, none, none, none⟩]).find?
          (fun j => !startedFlag j)) ∧
    ∀ j ∈ [(⟨"S1", 1, 0, some 5, some "h", some 0, none⟩ : Job),
        ⟨"S2", 2, 0, none, none, none, none⟩],
      is_started [(⟨"S1", 1, 0, some 5, some "h", some 0, none⟩ : Job),
        ⟨"S2", 2, 0, none, none, none, none⟩] j.session =
        .ok (startedFlag j)) :=
  ⟨by decide, C6_next_scans_iterate (by decide)⟩

/-- Claim C4 counterexample: the claim says that after a recoverable failure inside
guarded execution the job's `error` is non-empty and `is_started` is false.
Python records `str(exc)`, which is the EMPTY string for an exception with no
message: then the stored `error` is `""` (empty), which is falsy, so
`is_started` is true afterwards. -/
theorem C4_counterexample :
    update_status [⟨"S1", 1, 0, none, none, none, none⟩] "S1" 5 "h"
        (.failure "") =
      .ok ([⟨"S1", 1, 0, some 5, some "h", some 0, some ""⟩], false) ∧
    is_started [(⟨"S1", 1, 0, some 5, some "h", some 0, some ""⟩ : Job)]
        "S1" = .ok true := by
  decide

/-- Claim C4 (amended): for every table with unique sessions, a recoverable failure
inside guarded execution is recorded as `str(exc)` on the job's `error` field
and is not re-raised (the second component is `false`); afterwards the row has
`error = str(exc)`, `finished = 0` and `started` set, and — provided the
failure's description is a non-empty string — `is_started` is false. -/
theorem C4_failure_recorded {q : List Job} (hwf : WF q) (k : String)
    (now : Nat) (host : String) (msg : String) (hmsg : msg ≠ "") :
    ∃ q' j, update_status q k now host (.failure msg) = .ok (q', false) ∧
      lookup q' k = .ok j ∧ j.error = some msg ∧ j.finished = some 0 ∧
      j.started = some now ∧ is_started q' k = .ok false := by
  obtain ⟨q1, hq1, hl1, hwf1⟩ := update_spec hwf k now
    { started := some (some now), hostname := some (some host),
      finished := some (some 0) }
  obtain ⟨q2, hq2, hl2, hwf2⟩ := update_spec hwf1 k now
    { error := some (some msg) }
  have hs : set_started q k now host = .ok q1 := hq1
  have he : set_errored q1 k now msg = .ok q2 := hq2
  have hbase : baseRow q1 k now =
      applyUpdate (baseRow q k now)
        { started := some (some now), hostname := some (some host),
          finished := some (some 0) } :=
    baseRow_of_lookup now hl1
  refine ⟨q2, applyUpdate (baseRow q1 k now) { error := some (some msg) },
    ?_, hl2, rfl, ?_, ?_, ?_⟩
  · simp only [update_status, hs, he]
  · rw [hbase]
    rfl
  · rw [hbase]
    rfl
  · rw [is_started_of_lookup hl2, hbase]
    simp [startedFlag, applyUpdate, truthyNat, truthyInt, truthyStr, hmsg]

/-- Witness for C4 (amended) at a concrete queue and failure message. -/
theorem C4_failure_recorded_witness :
    WF [defaultJob "S1" 1] ∧ "boom" ≠ "" ∧
    (∃ q' j, update_status [defaultJob "S1" 1] "S1" 5 "h" (.failure "boom") =
        .ok (q', false) ∧
      lookup q' "S1" = .ok j ∧ j.error = some "boom" ∧ j.finished = some 0 ∧
      j.started = some 5 ∧ is_started q' "S1" = .ok false) :=
  ⟨by decide, by decide,
    C4_failure_recorded (by decide) "S1" 5 "h" "boom" (by decide)⟩

/-- Claim C5 counterexample: the claim says that after `set_started(k)`,
`is_started(k)` is true for EVERY prior field state of the row.  But
`set_started` does not clear a previously recorded error, and `is_started`
requires a falsy `error`: starting from a row with `error = "boom"`,
`set_started` leaves the error in place and `is_started` is false. -/
theorem C5_counterexample :
    set_started [⟨"S1", 1, 0, none, none, none, some "boom"⟩] "S1" 5 "h" =
      .ok [⟨"S1", 1, 0, some 5, some "h", some 0, some "boom"⟩] ∧
    is_started [(⟨"S1", 1, 0, some 5, some "h", some 0, some "boom"⟩ : Job)]
        "S1" = .ok false := by
  decide

/-- Claim C5 (amended): on a table with unique sessions, `set_started(k)`
followed by `set_finished(k)` leaves `is_started(k)` false, for EVERY prior
field state of the row; and provided the base row for `k` (the stored row, or
the default job when absent) has a falsy `error` field and the claim
timestamp is nonzero, `is_started(k)` is true between the two calls. -/
theorem C5_started_then_finished {q : List Job} (hwf : WF q) (k : String)
    (now : Nat) (host : String) (now2 : Nat) :
    ∃ q1 q2, set_started q k now host = .ok q1 ∧
      set_finished q1 k now2 = .ok q2 ∧ is_started q2 k = .ok false ∧
      (now ≠ 0 → truthyStr (baseRow q k now).error = false →
        is_started q1 k = .ok true) := by
  obtain ⟨q1, hq1, hl1, hwf1⟩ := update_spec hwf k now
    { started := some (some now), hostname := some (some host),
      finished := some (some 0) }
  obtain ⟨q2, hq2, hl2, hwf2⟩ := update_spec hwf1 k now2
    { finished := some (some 1) }
  refine ⟨q1, q2, hq1, hq2, ?_, ?_⟩
  · rw [is_started_of_lookup hl2]
    simp [startedFlag, applyUpdate, truthyInt]
  · intro hnow herr
    rw [is_started_of_lookup hl1]
    simp [startedFlag, applyUpdate, truthyNat, truthyInt, hnow, herr]

/-- Witness for C5 (amended) at a concrete queue whose row carries a truthy
prior error, exercising the for-every-prior-state half. -/
theorem C5_started_then_finished_witness :
    WF [(⟨"S1", 1, 0, none, none, none, some "boom"⟩ : Job)] ∧
    (∃ q1 q2, set_started [(⟨"S1", 1, 0, none, none, none, some "boom"⟩ : Job)]
        "S1" 5 "h" = .ok q1 ∧
      set_finished q1 "S1" 7 = .ok q2 ∧ is_started q2 "S1" = .ok false ∧
      ((5 : Nat) ≠ 0 →
        truthyStr (baseRow [(⟨"S1", 1, 0, none, none, none, some "boom"⟩ : Job)]
          "S1" 5).error = false →
        is_started q1 "S1" = .ok true)) :=
  ⟨by decide, C5_started_then_finished (by decide) "S1" 5 "h" 7⟩

/-- Claim C7: for every table, key `k` and job `j` with `j.session = k`,
insert-or-replace (`__setitem__`) succeeds, `contains k` becomes true, and
`lookup k` returns a job equal to `j` in all seven fields (`Job` equality). -/
theorem C7_insert_then_lookup (q : List Job) (k : String) (j : Job)
    (hj : j.session = k) :
    ∃ q', setItem q k j = .ok q' ∧ contains q' k = true ∧
      lookup q' k = .ok j := by
  refine ⟨replaceRow q k j, ?_, ?_, lookup_replaceRow_self hj⟩
  · rw [setItem, if_pos (by simp [hj])]
  · rw [contains, filter_replaceRow_self hj]
    rfl

/-- Witness for C7 at a concrete table and job. -/
theorem C7_insert_then_lookup_witness :
    (⟨"S2", 3, 7, none, none, none, none⟩ : Job).session = "S2" ∧
    (∃ q', setItem [defaultJob "S1" 1] "S2"
        ⟨"S2", 3, 7, none, none, none, none⟩ = .ok q' ∧
      contains q' "S2" = true ∧
      lookup q' "S2" = .ok ⟨"S2", 3, 7, none, none, none, none⟩) :=
  ⟨by decide, C7_insert_then_lookup [defaultJob "S1" 1] "S2"
    ⟨"S2", 3, 7, none, none, none, none⟩ (by decide)⟩

/-- Claim C8: `iterate` (the `__iter__` query) always yields exactly the jobs of
the table (a permutation of it), sorted by `JobOrder` — priority descending,
ties by `added` ascending — whatever the insertion order of the table was. -/
theorem C8_iterate_sorted (q : List Job) :
    (iterate q).Perm q ∧ List.Sorted JobOrder (iterate q) :=
  ⟨iterate_perm q, iterate_sorted q⟩

/-- Claim C9: on a table with unique sessions, if the row for `k` is present
(`lookup` returns `j0`), then `set_errored k e` succeeds and the stored row
for `k` becomes `j0` with only the `error` field replaced by `str(e)`; all
other fields (`session`, `added`, `priority`, `started`, `hostname`,
`finished`) are unchanged. -/
theorem C9_set_errored_frame (q : List Job) (hwf : WF q) (k : String)
    (now : Nat) (e : String) (j0 : Job) (hl : lookup q k = .ok j0) :
    ∃ q', set_errored q k now e = .ok q' ∧
      lookup q' k = .ok { j0 with error := some e } := by
  obtain ⟨q', hq', hl', _⟩ := update_spec hwf k now { error := some (some e) }
  refine ⟨q', hq', ?_⟩
  rw [hl', baseRow_of_lookup now hl]
  rfl

/-- Witness for C9 at a concrete table whose row carries prior state. -/
theorem C9_set_errored_frame_witness :
    WF [(⟨"S1", 1, 3, some 5, some "h", some 0, none⟩ : Job)] ∧
    lookup [(⟨"S1", 1, 3, some 5, some "h", some 0, none⟩ : Job)] "S1" =
      .ok ⟨"S1", 1, 3, some 5, some "h", some 0, none⟩ ∧
    (∃ q', set_errored [(⟨"S1", 1, 3, some 5, some "h", some 0, none⟩ : Job)]
        "S1" 9 "oops" = .ok q' ∧
      lookup q' "S1" =
        .ok ⟨"S1", 1, 3, some 5, some "h", some 0, some "oops"⟩) :=
  ⟨by decide, by decide,
    C9_set_errored_frame [(⟨"S1", 1, 3, some 5, some "h", some 0, none⟩ : Job)]
      (by decide) "S1" 9 "oops" ⟨"S1", 1, 3, some 5, some "h", some 0, none⟩
      (by decide)⟩

/-- Claim C10: for a key with no row (`contains` false), `is_started` propagates
the `KeyError` of `__getitem__` rather than returning false. -/
theorem C10_is_started_absent {q : List Job} {k : String}
    (h : contains q k = false) :
    is_started q k = .error (.notFound k) := by
  have hf : q.filter (fun j => j.session == k) = [] := by
    rw [contains] at h
    simpa using h
  simp [is_started, lookup, hf]

/-- Witness for C10 on a nonempty table missing the key. -/
theorem C10_is_started_absent_witness :
    contains [defaultJob "S1" 1] "S2" = false ∧
    is_started [defaultJob "S1" 1] "S2" = .error (.notFound "S2") :=
  ⟨by decide, C10_is_started_absent (by decide)⟩
